import Mathlib

/-!
Verification of the range-type algebra implemented in
`lib/sqlalchemy/dialects/postgresql/ranges.py` (class `Range`).

The embedding instantiates the generic scalar domain `_T` at the integers,
which is the domain every examined behavior and example uses.  On that
domain Python's `isinstance(x, int)` test in `_get_discrete_step` is true
exactly for a present (non-`None`) bound, so the discrete step is `1`
whenever at least one bound is finite and absent otherwise.

Python `None` bounds become `Option Int`; the four bound characters
`'['`, `'('`, `']'`, `')'` become the four constructors of `Marker`;
the two-character `bounds` string of a range is stored as the two
inclusivity booleans (`lowerIncl` for `bounds[0] == '['`, `upperIncl`
for `bounds[1] == ']'`).  Methods that can raise (`union`, `difference`)
return `Except RangeError Range`, where `invalidCombination` stands for
the `ValueError` raises and `invariantViolation` for the final
`assert False` fallback of `difference`.
-/

namespace PGRanges

/-- Bound characters passed around by `_compare_edges` and friends:
`lbIncl` is `'['`, `lbExcl` is `'('`, `ubIncl` is `']'`, `ubExcl` is `')'`. -/
inductive Marker
  | lbIncl
  | lbExcl
  | ubIncl
  | ubExcl
deriving DecidableEq, Repr

/-- Python `bound in {"[", "("}`. -/
def Marker.isLower : Marker → Bool
  | .lbIncl => true
  | .lbExcl => true
  | .ubIncl => false
  | .ubExcl => false

/-- Python `bound in {"[", "]"}`. -/
def Marker.isIncl : Marker → Bool
  | .lbIncl => true
  | .lbExcl => false
  | .ubIncl => true
  | .ubExcl => false

/-- The dataclass `Range` of `ranges.py`, at the integer domain.
`lowerIncl` is `bounds[0] == "["` and `upperIncl` is `bounds[1] == "]"`;
equality of two ranges is Python's dataclass field-wise equality. -/
structure Range where
  lower : Option Int
  upper : Option Int
  lowerIncl : Bool
  upperIncl : Bool
  empty : Bool
deriving DecidableEq, Repr

/-- The `bounds[0]` character of a range, as a `Marker`. -/
def Range.lowerMarker (r : Range) : Marker :=
  if r.lowerIncl then .lbIncl else .lbExcl

/-- The `bounds[1]` character of a range, as a `Marker`. -/
def Range.upperMarker (r : Range) : Marker :=
  if r.upperIncl then .ubIncl else .ubExcl

/-- Method `Range._get_discrete_step` at the integer domain:
`isinstance(self.lower, int) or isinstance(self.upper, int)` holds exactly
when a bound is present, and then the step is `1`; `None` otherwise. -/
def Range.get_discrete_step (r : Range) : Option Int :=
  if r.lower.isSome || r.upper.isSome then some 1 else none

/-- The edge-normalization block inside `_compare_edges` (lines 177-199 of
the source): with a discrete step, an exclusive lower edge moves up one step
and becomes inclusive, and an inclusive upper edge moves up one step and
becomes exclusive; without a step the edge is unchanged.  Returns the
adjusted `(value, inclusivity)` pair. -/
def normEdge (step : Option Int) (v : Int) (isLowerB inc : Bool) : Int × Bool :=
  match step with
  | none => (v, inc)
  | some s =>
    if isLowerB then
      if !inc then (v + s, true) else (v, inc)
    else
      if inc then (v + s, false) else (v, inc)

/-- Method `Range._compare_edges`, with the receiver's discrete step passed
explicitly (the source reads it from `self._get_discrete_step()`).
Returns `-1`, `0` or `1` as `value1`-with-`bound1` is less than, equal to,
or greater than `value2`-with-`bound2`. -/
def cmpEdges (step : Option Int) (value1 : Option Int) (bound1 : Marker)
    (value2 : Option Int) (bound2 : Marker) (onlyValues : Bool) : Int :=
  match value1, value2 with
  | none, none =>
      if bound1.isLower = bound2.isLower then 0
      else if bound1.isLower then -1 else 1
  | none, some _ => if bound1.isLower then -1 else 1
  | some _, none => if bound2.isLower then 1 else -1
  | some v1, some v2 =>
    -- Short path for trivial case
    if bound1 = bound2 ∧ v1 = v2 then 0
    else
      let p1 := normEdge step v1 bound1.isLower bound1.isIncl
      let p2 := normEdge step v2 bound2.isLower bound2.isIncl
      if p1.1 < p2.1 then -1
      else if p1.1 > p2.1 then 1
      else if onlyValues then 0
      else if p1.2 ∧ p2.2 then 0
      else if ¬p1.2 ∧ ¬p2.2 then
        if bound1.isLower = bound2.isLower then 0
        else if bound1.isLower then 1 else -1
      else if ¬p1.2 then
        if bound1.isLower then 1 else -1
      else if ¬p2.2 then
        if bound2.isLower then -1 else 1
      else 0

/-- Method call `self._compare_edges(...)`: the step comes from the receiver. -/
def Range.compare_edges (self : Range) (v1 : Option Int) (b1 : Marker)
    (v2 : Option Int) (b2 : Marker) (onlyValues : Bool) : Int :=
  cmpEdges self.get_discrete_step v1 b1 v2 b2 onlyValues

/-- Method `Range._contains_value`: scalar containment check. -/
def Range.contains_value (r : Range) (value : Int) : Bool :=
  if r.empty then false
  else
    match r.lower, r.upper with
    | none, none => true
    | none, some u => if ¬r.upperIncl then decide (value < u) else decide (value ≤ u)
    | some l, none => if ¬r.lowerIncl then decide (value > l) else decide (value ≥ l)
    | some l, some u =>
        (if ¬r.lowerIncl then decide (value > l) else decide (value ≥ l))
          && (if ¬r.upperIncl then decide (value < u) else decide (value ≤ u))

/-- Method `Range.contained_by`. -/
def Range.contained_by (self other : Range) : Bool :=
  if self.empty then true
  else if other.empty then false
  else if self.compare_edges self.lower self.lowerMarker
            other.lower other.lowerMarker false < 0 then false
  else if self.compare_edges self.upper self.upperMarker
            other.upper other.upperMarker false > 0 then false
  else true

/-- The `Range` arm of method `Range.contains` (which dispatches on the
argument type and here calls `value.contained_by(self)`). -/
def Range.contains_range (self other : Range) : Bool :=
  other.contained_by self

/-- Method `Range.overlaps`. -/
def Range.overlaps (self other : Range) : Bool :=
  if self.empty || other.empty then false
  else if 0 ≤ self.compare_edges self.lower self.lowerMarker
              other.lower other.lowerMarker false
        ∧ self.compare_edges self.lower self.lowerMarker
              other.upper other.upperMarker false ≤ 0 then true
  else if 0 ≤ self.compare_edges other.lower other.lowerMarker
              self.lower self.lowerMarker false
        ∧ self.compare_edges other.lower other.lowerMarker
              self.upper self.upperMarker false ≤ 0 then true
  else false

/-- Method `Range._upper_edge_adjacent_to_lower`.  In the `res == -1`
branch the source computes `value2 - step`; a `None` value there would be a
Python `TypeError`, but `res == -1` is impossible when either value is
`None` and the markers are upper-vs-lower as in every call site, so that
dead corner is mapped to `false`. -/
def Range.upper_edge_adjacent_to_lower (self : Range) (value1 : Option Int)
    (bound1 : Marker) (value2 : Option Int) (bound2 : Marker) : Bool :=
  let res := self.compare_edges value1 bound1 value2 bound2 true
  if res = -1 then
    match self.get_discrete_step with
    | none => false
    | some step =>
      match value1, value2 with
      | some x1, some x2 =>
        if bound1 = .ubIncl then
          if bound2 = .lbIncl then decide (x1 = x2 - step) else decide (x1 = x2)
        else
          if bound2 = .lbIncl then decide (x1 = x2) else decide (x1 = x2 - step)
      | _, _ => false
  else if res = 0 then
    decide ((bound1 = .ubExcl ∧ bound2 = .lbIncl)
      ∨ (bound1 = .ubIncl ∧ bound2 = .lbExcl))
  else false

/-- Method `Range.adjacent_to`. -/
def Range.adjacent_to (self other : Range) : Bool :=
  if self.empty || other.empty then false
  else
    self.upper_edge_adjacent_to_lower self.upper self.upperMarker
        other.lower other.lowerMarker
      || self.upper_edge_adjacent_to_lower other.upper other.upperMarker
        self.lower self.lowerMarker

/-- Error kinds of `union` and `difference`: `invalidCombination` is the
explicit `raise ValueError`, `invariantViolation` is the trailing
`assert False` of `difference`. -/
inductive RangeError
  | invalidCombination
  | invariantViolation
deriving DecidableEq, Repr

/-- Method `Range.union`.  The result takes, for each side, the value and
bound character of whichever operand won the edge comparison (the source
builds `bounds=rlower_b + rupper_b` from the winners' characters). -/
def Range.union (self other : Range) : Except RangeError Range :=
  if self.empty then .ok other
  else if other.empty then .ok self
  else if ¬(self.overlaps other) ∧ ¬(self.adjacent_to other) then
    .error .invalidCombination
  else
    let cl := self.compare_edges self.lower self.lowerMarker
        other.lower other.lowerMarker false
    let cu := self.compare_edges self.upper self.upperMarker
        other.upper other.upperMarker false
    .ok ⟨if cl < 0 then self.lower else other.lower,
         if cu > 0 then self.upper else other.upper,
         if cl < 0 then self.lowerIncl else other.lowerIncl,
         if cu > 0 then self.upperIncl else other.upperIncl,
         false⟩

/-- Method `Range.difference`.  The branch structure follows the source
line by line; note that in the right-trim case the source line 514 reads
`rlower_b = "(" if oupper_b == "]" else "("` - both arms are `"("`, i.e.
the produced lower bound is exclusive regardless of `other`'s upper
character, and this is reproduced faithfully below. -/
def Range.difference (self other : Range) : Except RangeError Range :=
  if self.empty || other.empty then .ok self
  else
    let sl_vs_ol := self.compare_edges self.lower self.lowerMarker
        other.lower other.lowerMarker false
    let su_vs_ou := self.compare_edges self.upper self.upperMarker
        other.upper other.upperMarker false
    if sl_vs_ol < 0 ∧ su_vs_ou > 0 then .error .invalidCombination
    else
      let sl_vs_ou := self.compare_edges self.lower self.lowerMarker
          other.upper other.upperMarker false
      let su_vs_ol := self.compare_edges self.upper self.upperMarker
          other.lower other.lowerMarker false
      -- If the ranges do not overlap, result is simply the first
      if sl_vs_ou > 0 ∨ su_vs_ol < 0 then .ok self
      -- If this range is completely contained by the other, result is empty
      else if sl_vs_ol ≥ 0 ∧ su_vs_ou ≤ 0 then .ok ⟨none, none, true, false, true⟩
      -- If this range extends to the left of the other and ends in its middle
      else if sl_vs_ol ≤ 0 ∧ su_vs_ol ≥ 0 ∧ su_vs_ou ≤ 0 then
        let rub : Marker := if other.lowerMarker = .lbIncl then .ubExcl else .ubIncl
        if self.compare_edges self.lower self.lowerMarker other.lower rub false = 0 then
          .ok ⟨none, none, true, false, true⟩
        else
          .ok ⟨self.lower, other.lower, self.lowerIncl, decide (rub = .ubIncl), false⟩
      -- If this range starts in the middle of the other and extends to its right
      else if sl_vs_ol ≥ 0 ∧ su_vs_ou ≥ 0 ∧ sl_vs_ou ≤ 0 then
        let rlb : Marker := if other.upperMarker = .ubIncl then .lbExcl else .lbExcl
        if self.compare_edges other.upper rlb self.upper self.upperMarker false = 0 then
          .ok ⟨none, none, true, false, true⟩
        else
          .ok ⟨other.upper, self.upper, decide (rlb = .lbIncl), self.upperIncl, false⟩
      else
        -- the source's `assert False` fallback
        .error .invariantViolation

/-- Method `Range._stringify` (also `__str__`): canonical textual form. -/
def Range.stringify (r : Range) : String :=
  if r.empty then "empty"
  else
    let l := match r.lower with
      | none => ""
      | some v => toString v
    let u := match r.upper with
      | none => ""
      | some v => toString v
    let b0 := if r.lowerIncl then "[" else "("
    let b1 := if r.upperIncl then "]" else ")"
    b0 ++ l ++ "," ++ u ++ b1

/-- Modelled from the spec's words (canonical string form, section 4.4):
`"empty"` for the empty range; otherwise the lower bound character, the
lower value (empty string when unbounded), a comma, the upper value (empty
string when unbounded) and the upper bound character.  Stated separately
from `Range.stringify` so the source's serializer can be compared against
the spec's formula. -/
def specCanonicalForm (r : Range) : String :=
  if r.empty then "empty"
  else
    (if r.lowerIncl then "[" else "(")
      ++ (match r.lower with | none => "" | some v => toString v)
      ++ ","
      ++ (match r.upper with | none => "" | some v => toString v)
      ++ (if r.upperIncl then "]" else ")")

/-! ### Helper lemmas about the edge comparator -/

/-- Comparing an edge with itself yields `0`, for any step. -/
lemma cmpEdges_refl (s : Option Int) (v : Option Int) (m : Marker) :
    cmpEdges s v m v m false = 0 := by
  cases v with
  | none => simp [cmpEdges]
  | some x => simp [cmpEdges]

/-- When either compared value is infinite the comparator never consults the
discrete step. -/
lemma cmpEdges_step_irrel (s t : Option Int) (v1 : Option Int) (b1 : Marker)
    (v2 : Option Int) (b2 : Marker) (o : Bool) (h : v1 = none ∨ v2 = none) :
    cmpEdges s v1 b1 v2 b2 o = cmpEdges t v1 b1 v2 b2 o := by
  rcases h with h | h
  · subst h; cases v2 <;> rfl
  · subst h; cases v1 <;> rfl

set_option maxHeartbeats 4000000 in
/-- The comparator is antisymmetric for a fixed step. -/
lemma cmpEdges_antisymm (s : Option Int) (v1 v2 : Option Int) (b1 b2 : Marker) :
    cmpEdges s v1 b1 v2 b2 false = -cmpEdges s v2 b2 v1 b1 false := by
  cases v1 with
  | none =>
    cases v2 with
    | none => cases b1 <;> cases b2 <;> rfl
    | some y => cases b1 <;> rfl
  | some x =>
    cases v2 with
    | none => cases b2 <;> rfl
    | some y =>
      rcases s with _ | st <;> cases b1 <;> cases b2 <;>
        simp [cmpEdges, normEdge, Marker.isLower, Marker.isIncl] <;>
        split_ifs <;> omega

/-- A range with a present lower bound has discrete step `1`. -/
lemma step_of_lower_isSome {r : Range} (h : r.lower.isSome = true) :
    r.get_discrete_step = some 1 := by
  simp [Range.get_discrete_step, h]

/-- A range with a present upper bound has discrete step `1`. -/
lemma step_of_upper_isSome {r : Range} (h : r.upper.isSome = true) :
    r.get_discrete_step = some 1 := by
  simp [Range.get_discrete_step, h]

/-- The receiver of `_compare_edges` only matters through its discrete step,
and not at all when one of the compared values is infinite. -/
lemma compare_edges_recv (a b : Range) (v1 : Option Int) (b1 : Marker)
    (v2 : Option Int) (b2 : Marker) (o : Bool)
    (h : v1.isSome = true → v2.isSome = true →
      a.get_discrete_step = b.get_discrete_step) :
    a.compare_edges v1 b1 v2 b2 o = b.compare_edges v1 b1 v2 b2 o := by
  cases v1 with
  | none => exact cmpEdges_step_irrel _ _ _ _ _ _ _ (Or.inl rfl)
  | some x =>
    cases v2 with
    | none => exact cmpEdges_step_irrel _ _ _ _ _ _ _ (Or.inr rfl)
    | some y =>
      unfold Range.compare_edges
      rw [h rfl rfl]

/-- Lower markers round-trip through the stored inclusivity boolean. -/
lemma lowerMarker_mk (l u : Option Int) (li ui e : Bool) :
    (Range.mk l u li ui e).lowerMarker = (if li then Marker.lbIncl else Marker.lbExcl) := rfl

/-- Upper markers round-trip through the stored inclusivity boolean. -/
lemma upperMarker_mk (l u : Option Int) (li ui e : Bool) :
    (Range.mk l u li ui e).upperMarker = (if ui then Marker.ubIncl else Marker.ubExcl) := rfl

/-- The lower marker of a range is a lower-side marker. -/
lemma lowerMarker_isLower (r : Range) : r.lowerMarker.isLower = true := by
  unfold Range.lowerMarker; split <;> rfl

/-- The upper marker of a range is an upper-side marker. -/
lemma upperMarker_isLower (r : Range) : r.upperMarker.isLower = false := by
  unfold Range.upperMarker; split <;> rfl

/-- Every range is contained by itself. -/
lemma contained_by_refl (r : Range) : r.contained_by r = true := by
  unfold Range.contained_by
  by_cases h : r.empty = true
  · simp [h]
  · simp [h, Range.compare_edges, cmpEdges_refl]

/-- The case analysis of `difference` is exhaustive: every run ends in the
explicit `ValueError` or in one of the documented `return`s, never in the
trailing `assert False`. -/
lemma difference_cases (a b : Range) :
    a.difference b = .error .invalidCombination ∨ ∃ c, a.difference b = .ok c := by
  unfold Range.difference
  by_cases h0 : (a.empty || b.empty) = true
  · rw [if_pos h0]; exact Or.inr ⟨_, rfl⟩
  · rw [if_neg h0]
    simp only []
    set c1 := a.compare_edges a.lower a.lowerMarker b.lower b.lowerMarker false with hc1
    set c2 := a.compare_edges a.upper a.upperMarker b.upper b.upperMarker false with hc2
    set c3 := a.compare_edges a.lower a.lowerMarker b.upper b.upperMarker false with hc3
    set c4 := a.compare_edges a.upper a.upperMarker b.lower b.lowerMarker false with hc4
    by_cases h1 : c1 < 0 ∧ c2 > 0
    · rw [if_pos h1]; exact Or.inl rfl
    · rw [if_neg h1]
      by_cases h2 : c3 > 0 ∨ c4 < 0
      · rw [if_pos h2]; exact Or.inr ⟨_, rfl⟩
      · rw [if_neg h2]
        by_cases h3 : c1 ≥ 0 ∧ c2 ≤ 0
        · rw [if_pos h3]; exact Or.inr ⟨_, rfl⟩
        · rw [if_neg h3]
          by_cases h4 : c1 ≤ 0 ∧ c4 ≥ 0 ∧ c2 ≤ 0
          · rw [if_pos h4]
            split_ifs <;> exact Or.inr ⟨_, rfl⟩
          · rw [if_neg h4]
            by_cases h5 : c1 ≥ 0 ∧ c2 ≥ 0 ∧ c3 ≤ 0
            · rw [if_pos h5]
              split_ifs <;> exact Or.inr ⟨_, rfl⟩
            · exfalso; omega

/-- Swapping both the receiver and the argument order of `_compare_edges`
negates the result, provided the two receivers agree on the discrete step
whenever both compared values are finite (always the case for edges of
integer ranges). -/
lemma compare_edges_flip (a b : Range) (v1 : Option Int) (m1 : Marker)
    (v2 : Option Int) (m2 : Marker)
    (h : v1.isSome = true → v2.isSome = true →
      a.get_discrete_step = b.get_discrete_step) :
    b.compare_edges v2 m2 v1 m1 false = -(a.compare_edges v1 m1 v2 m2 false) := by
  rw [compare_edges_recv a b v1 m1 v2 m2 false h]
  exact cmpEdges_antisymm _ _ _ _ _

/-- Containment of a non-empty range in a freshly built non-empty range,
reduced to the two edge comparisons of `contained_by`. -/
lemma mk_contains (x : Range) (hx : x.empty = false) (l u : Option Int)
    (li ui : Bool)
    (h1 : ¬(x.compare_edges x.lower x.lowerMarker l
        (if li then Marker.lbIncl else Marker.lbExcl) false < 0))
    (h2 : ¬(x.compare_edges x.upper x.upperMarker u
        (if ui then Marker.ubIncl else Marker.ubExcl) false > 0)) :
    (Range.mk l u li ui false).contains_range x = true := by
  unfold Range.contains_range Range.contained_by
  rw [← lowerMarker_mk l u li ui false] at h1
  rw [← upperMarker_mk l u li ui false] at h2
  simp [hx, h1, h2]

/-- An if-chain of the shape used by `overlaps` is the disjunction of its
two conditions. -/
lemma ite_chain_or (p q : Prop) [Decidable p] [Decidable q] :
    (if p then true else if q then true else false) = (decide p || decide q) := by
  split_ifs <;> simp_all

/-- The adjacency helper gives the same answer for two receivers that agree
on the discrete step whenever both edge values are finite, as long as the
first marker is upper-side and the second lower-side (true at both call
sites in `adjacent_to`). -/
lemma adj_helper_recv (a b : Range) (v1 : Option Int) (b1 : Marker)
    (v2 : Option Int) (b2 : Marker)
    (hb1 : b1.isLower = false) (hb2 : b2.isLower = true)
    (h : v1.isSome = true → v2.isSome = true →
      a.get_discrete_step = b.get_discrete_step) :
    a.upper_edge_adjacent_to_lower v1 b1 v2 b2
      = b.upper_edge_adjacent_to_lower v1 b1 v2 b2 := by
  cases v1 with
  | none =>
    cases v2 with
    | none =>
      unfold Range.upper_edge_adjacent_to_lower Range.compare_edges cmpEdges
      simp [hb1, hb2]
    | some y =>
      unfold Range.upper_edge_adjacent_to_lower Range.compare_edges cmpEdges
      simp [hb1, hb2]
  | some x =>
    cases v2 with
    | none =>
      unfold Range.upper_edge_adjacent_to_lower Range.compare_edges cmpEdges
      simp [hb1, hb2]
    | some y =>
      unfold Range.upper_edge_adjacent_to_lower Range.compare_edges
      rw [h rfl rfl]

/-- Symmetry of `overlaps`. -/
lemma overlaps_symm (a b : Range) : a.overlaps b = b.overlaps a := by
  unfold Range.overlaps
  rw [ite_chain_or, ite_chain_or]
  have e1 : a.compare_edges a.lower a.lowerMarker b.lower b.lowerMarker false
      = b.compare_edges a.lower a.lowerMarker b.lower b.lowerMarker false :=
    compare_edges_recv a b _ _ _ _ _
      (fun h1 h2 => (step_of_lower_isSome h1).trans (step_of_lower_isSome h2).symm)
  have e2 : a.compare_edges a.lower a.lowerMarker b.upper b.upperMarker false
      = b.compare_edges a.lower a.lowerMarker b.upper b.upperMarker false :=
    compare_edges_recv a b _ _ _ _ _
      (fun h1 h2 => (step_of_lower_isSome h1).trans (step_of_upper_isSome h2).symm)
  have e3 : a.compare_edges b.lower b.lowerMarker a.lower a.lowerMarker false
      = b.compare_edges b.lower b.lowerMarker a.lower a.lowerMarker false :=
    compare_edges_recv a b _ _ _ _ _
      (fun h1 h2 => (step_of_lower_isSome h2).trans (step_of_lower_isSome h1).symm)
  have e4 : a.compare_edges b.lower b.lowerMarker a.upper a.upperMarker false
      = b.compare_edges b.lower b.lowerMarker a.upper a.upperMarker false :=
    compare_edges_recv a b _ _ _ _ _
      (fun h1 h2 => (step_of_upper_isSome h2).trans (step_of_lower_isSome h1).symm)
  rw [e1, e2, e3, e4]
  by_cases he : a.empty = true <;> by_cases hf : b.empty = true <;>
    simp [he, hf, Bool.or_comm]

/-- Symmetry of `adjacent_to`. -/
lemma adjacent_symm (a b : Range) : a.adjacent_to b = b.adjacent_to a := by
  unfold Range.adjacent_to
  have e1 : a.upper_edge_adjacent_to_lower a.upper a.upperMarker b.lower b.lowerMarker
      = b.upper_edge_adjacent_to_lower a.upper a.upperMarker b.lower b.lowerMarker :=
    adj_helper_recv a b _ _ _ _ (upperMarker_isLower a) (lowerMarker_isLower b)
      (fun h1 h2 => (step_of_upper_isSome h1).trans (step_of_lower_isSome h2).symm)
  have e2 : a.upper_edge_adjacent_to_lower b.upper b.upperMarker a.lower a.lowerMarker
      = b.upper_edge_adjacent_to_lower b.upper b.upperMarker a.lower a.lowerMarker :=
    adj_helper_recv a b _ _ _ _ (upperMarker_isLower b) (lowerMarker_isLower a)
      (fun h1 h2 => (step_of_lower_isSome h2).trans (step_of_upper_isSome h1).symm)
  rw [e1, e2]
  by_cases he : a.empty = true <;> by_cases hf : b.empty = true <;>
    simp [he, hf, Bool.or_comm]

/-! ### Claim theorems -/

/-- C1: the claim's universally quantified membership law fails on the code.
At the failing input `Range(5, 20).difference(Range(1, 10))` (both with the
default bounds `"[)"`), the right-trim case produces `Range(10, 20, "()")`:
the value `10` lies in `self` and not in `other`, so the claim requires it
in the result, yet the result excludes it, because line 514 of the source
uses an exclusive `"("` lower bound regardless of `other`'s upper bound
character instead of its complement `"["`.  The claim's own concrete
left-trim example `Range(1, 10).difference(Range(5, 20)) = Range(1, 5, "[)")`
does hold, as the first conjunct shows. -/
theorem c1_difference_right_trim_bug :
    (Range.mk (some 1) (some 10) true false false).difference
        (Range.mk (some 5) (some 20) true false false)
      = .ok (Range.mk (some 1) (some 5) true false false)
    ∧ (Range.mk (some 5) (some 20) true false false).difference
        (Range.mk (some 1) (some 10) true false false)
      = .ok (Range.mk (some 10) (some 20) false false false)
    ∧ (Range.mk (some 5) (some 20) true false false).contains_value 10 = true
    ∧ (Range.mk (some 1) (some 10) true false false).contains_value 10 = false
    ∧ (Range.mk (some 10) (some 20) false false false).contains_value 10 = false := by
  exact ⟨rfl, rfl, by decide, by decide, by decide⟩

/-- C2: `union` raises exactly when both operands are non-empty and neither
overlap nor are adjacent; `difference` raises exactly when both operands are
non-empty and `other` is a strict inner subset of `self` in the sense of the
edge comparisons; every other input returns a `Range` (for `union` this is
immediate, for `difference` it is the exhaustiveness of the case analysis);
and the two concrete examples of the claim raise. -/
theorem c2_error_conditions :
    (∀ a b : Range, a.union b = .error .invalidCombination ↔
        a.empty = false ∧ b.empty = false
        ∧ a.overlaps b = false ∧ a.adjacent_to b = false)
    ∧ (∀ a b : Range, a.difference b = .error .invalidCombination ↔
        a.empty = false ∧ b.empty = false
        ∧ a.compare_edges a.lower a.lowerMarker b.lower b.lowerMarker false < 0
        ∧ a.compare_edges a.upper a.upperMarker b.upper b.upperMarker false > 0)
    ∧ (∀ a b : Range, a.union b = .error .invalidCombination
        ∨ ∃ c, a.union b = .ok c)
    ∧ (∀ a b : Range, a.difference b = .error .invalidCombination
        ∨ ∃ c, a.difference b = .ok c)
    ∧ (Range.mk (some 1) (some 10) true false false).union
        (Range.mk (some 20) (some 30) true false false) = .error .invalidCombination
    ∧ (Range.mk (some 1) (some 10) true false false).difference
        (Range.mk (some 3) (some 5) true false false) = .error .invalidCombination := by
  refine ⟨?_, ?_, ?_, difference_cases, rfl, rfl⟩
  · intro a b
    unfold Range.union
    by_cases ha : a.empty = true
    · rw [if_pos ha]
      simp [ha]
    · rw [if_neg ha]
      by_cases hb : b.empty = true
      · rw [if_pos hb]
        simp [hb]
      · rw [if_neg hb]
        rw [Bool.not_eq_true] at ha hb
        by_cases hg : ¬a.overlaps b = true ∧ ¬a.adjacent_to b = true
        · rw [if_pos hg]
          obtain ⟨hg1, hg2⟩ := hg
          rw [Bool.not_eq_true] at hg1 hg2
          simp [ha, hb, hg1, hg2]
        · rw [if_neg hg]
          constructor
          · intro h; exact absurd h (by simp)
          · rintro ⟨-, -, ho, hadj⟩
            exact absurd ⟨by simp [ho], by simp [hadj]⟩ hg
  · intro a b
    constructor
    · intro h
      unfold Range.difference at h
      by_cases h0 : (a.empty || b.empty) = true
      · rw [if_pos h0] at h; exact absurd h (by simp)
      · rw [if_neg h0] at h
        simp only [] at h
        simp only [Bool.or_eq_true, not_or, Bool.not_eq_true] at h0
        set c1 := a.compare_edges a.lower a.lowerMarker b.lower b.lowerMarker false with hc1
        set c2 := a.compare_edges a.upper a.upperMarker b.upper b.upperMarker false with hc2
        set c3 := a.compare_edges a.lower a.lowerMarker b.upper b.upperMarker false with hc3
        set c4 := a.compare_edges a.upper a.upperMarker b.lower b.lowerMarker false with hc4
        by_cases h1 : c1 < 0 ∧ c2 > 0
        · exact ⟨h0.1, h0.2, h1.1, h1.2⟩
        · rw [if_neg h1] at h
          exfalso
          by_cases h2 : c3 > 0 ∨ c4 < 0
          · rw [if_pos h2] at h; exact absurd h (by simp)
          · rw [if_neg h2] at h
            by_cases h3 : c1 ≥ 0 ∧ c2 ≤ 0
            · rw [if_pos h3] at h; exact absurd h (by simp)
            · rw [if_neg h3] at h
              by_cases h4 : c1 ≤ 0 ∧ c4 ≥ 0 ∧ c2 ≤ 0
              · rw [if_pos h4] at h
                split_ifs at h
              · rw [if_neg h4] at h
                by_cases h5 : c1 ≥ 0 ∧ c2 ≥ 0 ∧ c3 ≤ 0
                · rw [if_pos h5] at h
                  split_ifs at h
                · omega
    · rintro ⟨ha, hb, hcl, hcu⟩
      unfold Range.difference
      rw [if_neg (by simp [ha, hb])]
      simp only []
      rw [if_pos ⟨hcl, hcu⟩]
  · intro a b
    unfold Range.union
    by_cases ha : a.empty = true
    · rw [if_pos ha]; exact Or.inr ⟨_, rfl⟩
    · rw [if_neg ha]
      by_cases hb : b.empty = true
      · rw [if_pos hb]; exact Or.inr ⟨_, rfl⟩
      · rw [if_neg hb]
        by_cases hg : ¬a.overlaps b = true ∧ ¬a.adjacent_to b = true
        · rw [if_pos hg]; exact Or.inl rfl
        · rw [if_neg hg]; exact Or.inr ⟨_, rfl⟩

/-- C3: the defensive fallback (`assert False`) at the end of `difference`
is unreachable: every call either raises the invalid-combination error or
returns through one of the documented cases. -/
theorem c3_fallback_unreachable :
    ∀ a b : Range,
      a.difference b = .error .invalidCombination ∨ ∃ c, a.difference b = .ok c :=
  difference_cases

/-- C4: whenever `a.union(b)` returns a range `c` without raising, `c`
contains both operands as sub-ranges. -/
theorem c4_union_contains_operands :
    ∀ a b c : Range, a.union b = .ok c →
      c.contains_range a = true ∧ c.contains_range b = true := by
  intro a b c h
  unfold Range.union at h
  by_cases ha : a.empty = true
  · rw [if_pos ha] at h
    injection h with h
    subst h
    refine ⟨?_, contained_by_refl b⟩
    unfold Range.contains_range Range.contained_by
    rw [if_pos ha]
  · rw [if_neg ha] at h
    by_cases hb : b.empty = true
    · rw [if_pos hb] at h
      injection h with h
      subst h
      refine ⟨contained_by_refl a, ?_⟩
      unfold Range.contains_range Range.contained_by
      rw [if_pos hb]
    · rw [if_neg hb] at h
      by_cases hg : ¬a.overlaps b = true ∧ ¬a.adjacent_to b = true
      · rw [if_pos hg] at h
        exact absurd h (by simp)
      · rw [if_neg hg] at h
        simp only [] at h
        injection h with h
        subst h
        rw [Bool.not_eq_true] at ha hb
        set cl := a.compare_edges a.lower a.lowerMarker b.lower b.lowerMarker false with hcl
        set cu := a.compare_edges a.upper a.upperMarker b.upper b.upperMarker false with hcu
        have f1 : b.compare_edges b.lower b.lowerMarker a.lower a.lowerMarker false = -cl := by
          rw [hcl]
          exact compare_edges_flip a b _ _ _ _
            (fun h1 h2 => (step_of_lower_isSome h1).trans (step_of_lower_isSome h2).symm)
        have f2 : b.compare_edges b.upper b.upperMarker a.upper a.upperMarker false = -cu := by
          rw [hcu]
          exact compare_edges_flip a b _ _ _ _
            (fun h1 h2 => (step_of_upper_isSome h1).trans (step_of_upper_isSome h2).symm)
        have ga : ∀ v m, a.compare_edges v m v m false = 0 := fun v m => cmpEdges_refl _ v m
        have gb : ∀ v m, b.compare_edges v m v m false = 0 := fun v m => cmpEdges_refl _ v m
        by_cases hl : cl < 0
        · by_cases hu : cu > 0
          · simp only [if_pos hl, if_pos hu]
            refine ⟨mk_contains a ha _ _ _ _ ?_ ?_, mk_contains b hb _ _ _ _ ?_ ?_⟩
            · show ¬(a.compare_edges a.lower a.lowerMarker a.lower a.lowerMarker false < 0)
              rw [ga]; omega
            · show ¬(a.compare_edges a.upper a.upperMarker a.upper a.upperMarker false > 0)
              rw [ga]; omega
            · show ¬(b.compare_edges b.lower b.lowerMarker a.lower a.lowerMarker false < 0)
              rw [f1]; omega
            · show ¬(b.compare_edges b.upper b.upperMarker a.upper a.upperMarker false > 0)
              rw [f2]; omega
          · simp only [if_pos hl, if_neg hu]
            refine ⟨mk_contains a ha _ _ _ _ ?_ ?_, mk_contains b hb _ _ _ _ ?_ ?_⟩
            · show ¬(a.compare_edges a.lower a.lowerMarker a.lower a.lowerMarker false < 0)
              rw [ga]; omega
            · show ¬(a.compare_edges a.upper a.upperMarker b.upper b.upperMarker false > 0)
              rw [← hcu]; omega
            · show ¬(b.compare_edges b.lower b.lowerMarker a.lower a.lowerMarker false < 0)
              rw [f1]; omega
            · show ¬(b.compare_edges b.upper b.upperMarker b.upper b.upperMarker false > 0)
              rw [gb]; omega
        · by_cases hu : cu > 0
          · simp only [if_neg hl, if_pos hu]
            refine ⟨mk_contains a ha _ _ _ _ ?_ ?_, mk_contains b hb _ _ _ _ ?_ ?_⟩
            · show ¬(a.compare_edges a.lower a.lowerMarker b.lower b.lowerMarker false < 0)
              rw [← hcl]; omega
            · show ¬(a.compare_edges a.upper a.upperMarker a.upper a.upperMarker false > 0)
              rw [ga]; omega
            · show ¬(b.compare_edges b.lower b.lowerMarker b.lower b.lowerMarker false < 0)
              rw [gb]; omega
            · show ¬(b.compare_edges b.upper b.upperMarker a.upper a.upperMarker false > 0)
              rw [f2]; omega
          · simp only [if_neg hl, if_neg hu]
            refine ⟨mk_contains a ha _ _ _ _ ?_ ?_, mk_contains b hb _ _ _ _ ?_ ?_⟩
            · show ¬(a.compare_edges a.lower a.lowerMarker b.lower b.lowerMarker false < 0)
              rw [← hcl]; omega
            · show ¬(a.compare_edges a.upper a.upperMarker b.upper b.upperMarker false > 0)
              rw [← hcu]; omega
            · show ¬(b.compare_edges b.lower b.lowerMarker b.lower b.lowerMarker false < 0)
              rw [gb]; omega
            · show ¬(b.compare_edges b.upper b.upperMarker b.upper b.upperMarker false > 0)
              rw [gb]; omega

/-- Witness for C4 at the spec's own example `Range(1, 10).union(Range(5, 15))
= Range(1, 15, "[)")`: the union result contains both operands. -/
theorem c4_union_contains_operands_witness :
    (Range.mk (some 1) (some 15) true false false).contains_range
        (Range.mk (some 1) (some 10) true false false) = true
    ∧ (Range.mk (some 1) (some 15) true false false).contains_range
        (Range.mk (some 5) (some 15) true false false) = true :=
  c4_union_contains_operands
    (Range.mk (some 1) (some 10) true false false)
    (Range.mk (some 5) (some 15) true false false)
    (Range.mk (some 1) (some 15) true false false) rfl

/-- C5: `overlaps` and `adjacent_to` are symmetric for all pairs of ranges. -/
theorem c5_overlaps_adjacent_symm :
    ∀ a b : Range,
      a.overlaps b = b.overlaps a ∧ a.adjacent_to b = b.adjacent_to a :=
  fun a b => ⟨overlaps_symm a b, adjacent_symm a b⟩

/-- C6: on the integer domain the comparator normalizes exclusive lower
edges and inclusive upper edges by one step, so the exclusive lower edge at
`0` compares equal to the inclusive lower edge at `1` (and dually on the
upper side), and `Range(0, 5, "(]")` and `Range(1, 6, "[)")` contain exactly
the same integers. -/
theorem c6_discrete_normalization :
    (Range.mk (some 0) (some 5) false true false).compare_edges
        (some 0) .lbExcl (some 1) .lbIncl false = 0
    ∧ (Range.mk (some 0) (some 5) false true false).compare_edges
        (some 5) .ubIncl (some 6) .ubExcl false = 0
    ∧ ∀ v : Int,
        (Range.mk (some 0) (some 5) false true false).contains_value v
          = (Range.mk (some 1) (some 6) true false false).contains_value v := by
  refine ⟨by decide, by decide, fun v => ?_⟩
  rw [Bool.eq_iff_iff]
  simp [Range.contains_value]
  omega

/-- C7's counterexample: `r.union(e) == r` fails when `r` is itself an empty
range carrying stored bounds, because `union` then returns `e` and dataclass
equality compares all fields: `Range(1, 2, empty=True).union(Range(None,
None, empty=True))` is `Range(None, None, empty=True)`, which is not equal
to `Range(1, 2, empty=True)`. -/
theorem c7_union_left_identity_cex :
    (Range.mk (some 1) (some 2) true false true).union
        (Range.mk none none true false true)
      = .ok (Range.mk none none true false true)
    ∧ decide (Range.mk none none true false true
        = Range.mk (some 1) (some 2) true false true) = false := by
  exact ⟨rfl, by decide⟩

/-- C7 as amended: for every empty range `e`, `e.union(r) == r`,
`r.difference(e) == r` and `e.difference(r) == e` hold for all `r`, and
`r.union(e) == r` and `r.contains(r)` hold for all non-empty `r` (when `r`
is empty, `r.union(e)` returns `e` instead). -/
theorem c7_empty_identity_amended :
    ∀ r e : Range, e.empty = true →
      e.union r = .ok r
      ∧ r.difference e = .ok r
      ∧ e.difference r = .ok e
      ∧ (r.empty = false → r.union e = .ok r ∧ r.contains_range r = true) := by
  intro r e he
  refine ⟨?_, ?_, ?_, fun hr => ⟨?_, ?_⟩⟩
  · unfold Range.union
    rw [if_pos he]
  · unfold Range.difference
    rw [if_pos (by simp [he])]
  · unfold Range.difference
    rw [if_pos (by simp [he])]
  · unfold Range.union
    rw [if_neg (by simp [hr]), if_pos he]
  · exact contained_by_refl r

/-- Witness for C7's amended theorem at `r = Range(1, 2)` and
`e = Range(None, None, empty=True)`. -/
theorem c7_empty_identity_amended_witness :
    (Range.mk none none true false true).union (Range.mk (some 1) (some 2) true false false)
      = .ok (Range.mk (some 1) (some 2) true false false)
    ∧ (Range.mk (some 1) (some 2) true false false).difference
        (Range.mk none none true false true)
      = .ok (Range.mk (some 1) (some 2) true false false)
    ∧ (Range.mk none none true false true).difference
        (Range.mk (some 1) (some 2) true false false)
      = .ok (Range.mk none none true false true)
    ∧ (Range.mk (some 1) (some 2) true false false).union
        (Range.mk none none true false true)
      = .ok (Range.mk (some 1) (some 2) true false false)
    ∧ (Range.mk (some 1) (some 2) true false false).contains_range
        (Range.mk (some 1) (some 2) true false false) = true := by
  have h := c7_empty_identity_amended
    (Range.mk (some 1) (some 2) true false false)
    (Range.mk none none true false true) rfl
  exact ⟨h.1, h.2.1, h.2.2.1, (h.2.2.2 rfl).1, (h.2.2.2 rfl).2⟩

/-- C8's counterexample: the empty range does not contain a non-empty
sub-range argument - `Range(None, None, empty=True).contains(Range(1, 2))`
is false, while the claim states it is true for every sub-range argument. -/
theorem c8_empty_contains_cex :
    (Range.mk none none true false true).contains_range
      (Range.mk (some 1) (some 2) true false false) = false := by
  decide

/-- C8 as amended: for `e = Range(None, None, empty=True)`, scalar
containment is always false, sub-range containment holds exactly for empty
arguments, and `overlaps` and `adjacent_to` are always false. -/
theorem c8_empty_laws_amended :
    ∀ (x : Int) (r : Range),
      (Range.mk none none true false true).contains_value x = false
      ∧ (Range.mk none none true false true).contains_range r = r.empty
      ∧ (Range.mk none none true false true).overlaps r = false
      ∧ (Range.mk none none true false true).adjacent_to r = false := by
  intro x r
  refine ⟨rfl, ?_, rfl, rfl⟩
  unfold Range.contains_range Range.contained_by
  by_cases hr : r.empty = true
  · simp [hr]
  · simp [hr]

/-- C9: the serializer produces exactly the spec's canonical form -
`"empty"` for empty ranges and `{b0}{lower},{upper}{b1}` otherwise with
unbounded sides rendered as the empty string - including on the spec's
concrete examples. -/
theorem c9_stringify_canonical :
    (∀ r : Range, r.stringify = specCanonicalForm r)
    ∧ (Range.mk (some 10) (some 50) true false false).stringify = "[10,50)"
    ∧ (Range.mk none (some 5) true false false).stringify = "[,5)"
    ∧ (Range.mk (some 1) none false false false).stringify = "(1,)"
    ∧ (Range.mk (some 1) (some 5) true true false).stringify = "[1,5]"
    ∧ (Range.mk none none true false true).stringify = "empty" :=
  ⟨fun _ => rfl, rfl, rfl, rfl, rfl, rfl⟩

/-- C10: a non-empty doubly-unbounded range contains every integer,
whatever its bounds characters are (this covers the default-constructed
`Range()`, whose bounds string is `"[)"`). -/
theorem c10_unbounded_contains_all :
    ∀ (v : Int) (li ui : Bool),
      (Range.mk none none li ui false).contains_value v = true :=
  fun _ _ _ => rfl

end PGRanges
